import Mathlib

/-!
Verification development for the task-orchestration engine of the
ai-team-orchestrator repository.  The definitions below are shallow
embeddings of the TypeScript source files (src/agent-registry.ts,
src/claude-pool.ts, src/taskdb.ts, the orchestrator module and the tasks
controller); JavaScript numbers are modelled as rationals, JavaScript
Maps as association functions, and timestamps as opaque strings supplied
by the caller.
-/

/-! ## Rule engine (src/agent-registry.ts)

`MVal` models the TypeScript union `number | string` used both for the
entries of the metrics map and for the `value` field of a rule
condition. -/

inductive MVal
  | num (q : ℚ)
  | str (s : String)
deriving DecidableEq, Repr

/-- Operators of `RuleCondition.operator` in agent-registry.ts
(`gt | lt | eq | gte | lte | contains | matches`). -/
inductive CondOp
  | gt
  | lt
  | eq
  | gte
  | lte
  | contains
  | matches
deriving DecidableEq, Repr

structure RuleCondition where
  metric : String
  operator : CondOp
  value : MVal
deriving DecidableEq, Repr

/-- `SelfImprovementRule` from agent-registry.ts, restricted to the fields
read by `evaluateRules` (trigger and priority are never consulted there). -/
structure SelfImprovementRule where
  id : String
  name : String
  description : String
  action : String
  conditions : List RuleCondition
  autoApply : Bool
deriving DecidableEq, Repr

structure RuleEvaluation where
  ruleId : String
  triggered : Bool
  action : String
  reason : String
  autoApply : Bool
deriving DecidableEq, Repr

/-- The numeric comparisons of `evaluateRules`:
`typeof value === 'number' && value OP (cond.value as number)`.
The guard on the metric value is the explicit `typeof` check of the
source.  When the threshold `cond.value` is a string the JavaScript
comparison coerces it with ToNumber; for the non-numeric strings that
occur in this program that coercion yields NaN, whose comparisons are
all false, so a string threshold is modelled as comparing false. -/
def numCmp (f : ℚ → ℚ → Bool) (v threshold : MVal) : Bool :=
  match v, threshold with
  | MVal.num a, MVal.num b => f a b
  | _, _ => false

/-- One arm of the `switch (cond.operator)` in
`AgentRegistry.evaluateRules` (agent-registry.ts lines 634 to 645):
a metric missing from the map evaluates false, the four numeric
operators require the metric value to be a number, `eq` is JavaScript
strict equality, and every other operator (including `contains` and
`matches`) falls into the `default: return false` branch. -/
def evalCondition (metrics : String → Option MVal) (c : RuleCondition) : Bool :=
  match metrics c.metric with
  | none => false
  | some v =>
    match c.operator with
    | CondOp.gt => numCmp (fun a b => decide (a > b)) v c.value
    | CondOp.lt => numCmp (fun a b => decide (a < b)) v c.value
    | CondOp.gte => numCmp (fun a b => decide (a ≥ b)) v c.value
    | CondOp.lte => numCmp (fun a b => decide (a ≤ b)) v c.value
    | CondOp.eq => decide (v = c.value)
    | _ => false

/-- The evaluation record pushed for a triggered rule. -/
def mkEvaluation (r : SelfImprovementRule) : RuleEvaluation :=
  { ruleId := r.id
  , triggered := true
  , action := r.action
  , reason := r.description
  , autoApply := r.autoApply }

/-- `AgentRegistry.evaluateRules` (agent-registry.ts lines 617 to 661),
parameterised by the fully built metrics map (the source first merges
`context.metrics` with the derived per-agent metrics and then only reads
the merged map).  The rules list stands for `this.memRules.values()` in
Map insertion order; a rule is emitted exactly when
`conditionResults.every(r => r)` holds. -/
def evaluateRules (rules : List SelfImprovementRule)
    (metrics : String → Option MVal) : List RuleEvaluation :=
  rules.filterMap (fun r =>
    if r.conditions.all (evalCondition metrics) then some (mkEvaluation r) else none)

/-- The four operators that compare numerically. -/
def numericOp (o : CondOp) : Bool :=
  match o with
  | CondOp.gt => true
  | CondOp.lt => true
  | CondOp.gte => true
  | CondOp.lte => true
  | _ => false

theorem evalCondition_str_numeric (metrics : String → Option MVal)
    (c : RuleCondition) (s : String) (hm : metrics c.metric = some (MVal.str s))
    (ho : numericOp c.operator = true) :
    evalCondition metrics c = false := by
  unfold evalCondition
  rw [hm]
  cases hop : c.operator <;> rw [hop] at ho <;> simp [numericOp] at ho <;>
    cases c.value <;> simp [numCmp]

theorem mem_evaluateRules_of_all (rules : List SelfImprovementRule)
    (metrics : String → Option MVal) (r : SelfImprovementRule)
    (hr : r ∈ rules) (hall : r.conditions.all (evalCondition metrics) = true) :
    mkEvaluation r ∈ evaluateRules rules metrics := by
  unfold evaluateRules
  rw [List.mem_filterMap]
  exact ⟨r, hr, by rw [hall]; rfl⟩

theorem mem_evaluateRules_elim (rules : List SelfImprovementRule)
    (metrics : String → Option MVal) (e : RuleEvaluation)
    (he : e ∈ evaluateRules rules metrics) :
    ∃ r ∈ rules, mkEvaluation r = e ∧ r.conditions.all (evalCondition metrics) = true := by
  unfold evaluateRules at he
  rw [List.mem_filterMap] at he
  obtain ⟨r, hr, hsome⟩ := he
  by_cases hall : r.conditions.all (evalCondition metrics) = true
  · refine ⟨r, hr, ?_, hall⟩
    rw [if_pos hall] at hsome
    exact Option.some.inj hsome
  · rw [if_neg hall] at hsome
    exact absurd hsome (by simp)

/-- C1: for every registered rule and every metrics map, the rule is
returned as triggered iff all of its conditions evaluate true (logical
AND); a condition whose metric value is a string under a numeric
operator evaluates false rather than throwing; and a rule with an empty
condition list always triggers. -/
theorem evaluateRules_and_semantics (rules : List SelfImprovementRule)
    (metrics : String → Option MVal) (r : SelfImprovementRule)
    (hnd : (rules.map SelfImprovementRule.id).Nodup) (hr : r ∈ rules) :
    (mkEvaluation r ∈ evaluateRules rules metrics ↔
      r.conditions.all (evalCondition metrics) = true)
    ∧ (∀ c : RuleCondition, ∀ s : String,
        metrics c.metric = some (MVal.str s) → numericOp c.operator = true →
        evalCondition metrics c = false)
    ∧ (r.conditions = [] → mkEvaluation r ∈ evaluateRules rules metrics) := by
  refine ⟨⟨fun hmem => ?_, fun hall => mem_evaluateRules_of_all rules metrics r hr hall⟩,
    fun c s hm ho => evalCondition_str_numeric metrics c s hm ho, fun hnil => ?_⟩
  · obtain ⟨r', hr', heq, hall⟩ := mem_evaluateRules_elim rules metrics (mkEvaluation r) hmem
    have hid : r'.id = r.id := congrArg RuleEvaluation.ruleId heq
    have : r' = r := List.inj_on_of_nodup_map hnd hr' hr hid
    rwa [this] at hall
  · exact mem_evaluateRules_of_all rules metrics r hr (by rw [hnil]; rfl)

theorem evaluateRules_and_semantics_witness :
    let rule : SelfImprovementRule :=
      { id := "r1", name := "n", description := "d", action := "suggest",
        conditions := [], autoApply := false }
    mkEvaluation rule ∈ evaluateRules [rule] (fun _ => none) := by
  intro rule
  exact ((evaluateRules_and_semantics [rule] (fun _ => none) rule
    (by simp) (by simp)).2.2) rfl

/-- C10: the condition type admits the operators contains and matches,
but the evaluator maps any such condition to false (its default branch),
so a rule containing at least one of them never triggers, whatever the
metrics map. -/
theorem contains_matches_never_triggers (metrics : String → Option MVal)
    (r : SelfImprovementRule)
    (hc : ∃ c ∈ r.conditions,
      c.operator = CondOp.contains ∨ c.operator = CondOp.matches) :
    r.conditions.all (evalCondition metrics) = false
    ∧ (∀ rules : List SelfImprovementRule,
        (rules.map SelfImprovementRule.id).Nodup → r ∈ rules →
        mkEvaluation r ∉ evaluateRules rules metrics) := by
  obtain ⟨c, hcmem, hcop⟩ := hc
  have hfalse : evalCondition metrics c = false := by
    unfold evalCondition
    cases hmv : metrics c.metric with
    | none => rfl
    | some v => rcases hcop with h | h <;> rw [h]
  have hall : r.conditions.all (evalCondition metrics) = false := by
    rw [List.all_eq_false]
    exact ⟨c, hcmem, by rw [hfalse]; simp⟩
  refine ⟨hall, fun rules hnd hr hmem => ?_⟩
  obtain ⟨r', hr', heq, hall'⟩ := mem_evaluateRules_elim rules metrics (mkEvaluation r) hmem
  have hid : r'.id = r.id := congrArg RuleEvaluation.ruleId heq
  have : r' = r := List.inj_on_of_nodup_map hnd hr' hr hid
  rw [this, hall] at hall'
  exact Bool.false_ne_true hall'

theorem contains_matches_never_triggers_witness :
    let cond : RuleCondition :=
      { metric := "m", operator := CondOp.contains, value := MVal.num 1 }
    let rule : SelfImprovementRule :=
      { id := "r2", name := "n", description := "d", action := "suggest",
        conditions := [cond], autoApply := false }
    rule.conditions.all (evalCondition (fun _ => some (MVal.num 5))) = false
    ∧ mkEvaluation rule ∉ evaluateRules [rule] (fun _ => some (MVal.num 5)) := by
  intro cond rule
  have h := contains_matches_never_triggers (fun _ => some (MVal.num 5)) rule
    ⟨cond, by simp, Or.inl rfl⟩
  exact ⟨h.1, h.2 [rule] (by simp) (by simp)⟩

/-! ## Pattern tracker (src/agent-registry.ts, trackPattern) -/

/-- `PatternTracker` record from agent-registry.ts. -/
structure PatternRecord where
  pattern : String
  domain : String
  occurrences : Nat
  examples : List String
  firstSeen : String
  lastSeen : String
deriving DecidableEq, Repr

/-- The in-memory `this.patternTracker` Map, keyed by pattern string. -/
def PatternStore : Type := String → Option PatternRecord

def setPattern (st : PatternStore) (k : String) (t : PatternRecord) : PatternStore :=
  fun x => if x = k then some t else st x

/-- `AgentRegistry.trackPattern` (agent-registry.ts lines 589 to 611).
`now` stands for `new Date().toISOString()` and `ex` for the `example`
argument (a Lean keyword).  On an existing record the occurrence count
is incremented, `lastSeen` refreshed and the example appended to
`existing.examples.slice(-4)` (JavaScript slice with a negative start
keeps the last four entries, modelled with truncated subtraction in
`List.drop`); otherwise a fresh record with one occurrence and a
singleton example list is inserted. -/
def trackPattern (st : PatternStore) (pat domain ex now : String) :
    PatternStore :=
  match st pat with
  | some existing =>
      setPattern st pat
        { existing with
          occurrences := existing.occurrences + 1
          lastSeen := now
          examples := existing.examples.drop (existing.examples.length - 4) ++ [ex] }
  | none =>
      setPattern st pat
        { pattern := pat, domain := domain, occurrences := 1,
          examples := [ex], firstSeen := now, lastSeen := now }

/-- One call of the repeated-tracking scenario: the domain, example and
timestamp arguments of a `trackPattern` invocation. -/
structure TrackCall where
  domain : String
  ex : String
  now : String

def trackMany (st : PatternStore) (pat : String) (calls : List TrackCall) :
    PatternStore :=
  calls.foldl (fun s c => trackPattern s pat c.domain c.ex c.now) st

/-- The last `n` elements of a list, in order. -/
def lastN (n : Nat) (l : List String) : List String :=
  l.drop (l.length - n)

theorem setPattern_get (st : PatternStore) (k : String) (t : PatternRecord) :
    setPattern st k t k = some t := by
  unfold setPattern
  simp

theorem lastN_step (es : List String) (e : String) :
    lastN 5 (es ++ [e]) = (lastN 5 es).drop ((lastN 5 es).length - 4) ++ [e] := by
  unfold lastN
  rw [List.drop_drop, List.length_drop]
  rw [List.drop_append_eq_append_drop]
  have h2 : (es ++ [e]).length - 5 - es.length = 0 := by
    simp only [List.length_append, List.length_cons, List.length_nil]
    omega
  have h3 : (es ++ [e]).length - 5 =
      es.length - 5 + (es.length - (es.length - 5) - 4) := by
    simp only [List.length_append, List.length_cons, List.length_nil]
    omega
  rw [h2, List.drop_zero, h3]

theorem trackMany_some (pat : String) (cs : List TrackCall) :
    ∀ (st : PatternStore) (t : PatternRecord) (es : List String),
      st pat = some t → t.examples = lastN 5 es →
      ∃ t', trackMany st pat cs pat = some t'
        ∧ t'.occurrences = t.occurrences + cs.length
        ∧ t'.examples = lastN 5 (es ++ cs.map TrackCall.ex) := by
  induction cs with
  | nil =>
    intro st t es hst hex
    exact ⟨t, hst, by simp, by simpa using hex⟩
  | cons c cs ih =>
    intro st t es hst hex
    have hstep : trackPattern st pat c.domain c.ex c.now pat =
        some { t with
          occurrences := t.occurrences + 1
          lastSeen := c.now
          examples := t.examples.drop (t.examples.length - 4) ++ [c.ex] } := by
      unfold trackPattern
      rw [hst]
      exact setPattern_get _ _ _
    have hex' : (t.examples.drop (t.examples.length - 4) ++ [c.ex]) =
        lastN 5 (es ++ [c.ex]) := by
      rw [hex, lastN_step]
    obtain ⟨t', h1, h2, h3⟩ := ih (trackPattern st pat c.domain c.ex c.now)
      _ (es ++ [c.ex]) hstep hex'
    refine ⟨t', ?_, ?_, ?_⟩
    · simpa [trackMany] using h1
    · rw [h2]
      simp only [List.length_cons]
      omega
    · rw [h3]
      simp [List.append_assoc]

/-- C5: tracking the same pattern key k times (k at least 1) starting
from a store where the key is absent yields a record whose occurrence
count equals k, whose examples list holds at most 5 entries, and whose
entries are exactly the most recently supplied examples in arrival
order. -/
theorem trackPattern_monotonic (st : PatternStore) (pat : String)
    (calls : List TrackCall) (h0 : st pat = none) (hne : calls ≠ []) :
    ∃ t, trackMany st pat calls pat = some t
      ∧ t.occurrences = calls.length
      ∧ t.examples = lastN 5 (calls.map TrackCall.ex)
      ∧ t.examples.length ≤ 5 := by
  match calls, hne with
  | c :: cs, _ =>
    have hstep : trackPattern st pat c.domain c.ex c.now pat =
        some { pattern := pat, domain := c.domain, occurrences := 1,
               examples := [c.ex], firstSeen := c.now, lastSeen := c.now } := by
      unfold trackPattern
      rw [h0]
      exact setPattern_get _ _ _
    obtain ⟨t', h1, h2, h3⟩ := trackMany_some pat cs
      (trackPattern st pat c.domain c.ex c.now) _ [c.ex] hstep (by simp [lastN])
    refine ⟨t', by simpa [trackMany] using h1,
      by simp only [List.length_cons]; simp at h2; omega, by simpa using h3, ?_⟩
    rw [h3]
    unfold lastN
    rw [List.length_drop]
    omega

theorem trackPattern_monotonic_witness :
    ∃ t, trackMany (fun _ => none) "p"
        [⟨"api", "e1", "t1"⟩, ⟨"api", "e2", "t2"⟩, ⟨"api", "e3", "t3"⟩,
         ⟨"api", "e4", "t4"⟩, ⟨"api", "e5", "t5"⟩, ⟨"api", "e6", "t6"⟩] "p" = some t
      ∧ t.occurrences = 6
      ∧ t.examples = lastN 5 ["e1", "e2", "e3", "e4", "e5", "e6"]
      ∧ t.examples.length ≤ 5 := by
  have h := trackPattern_monotonic (fun _ => none) "p"
    [⟨"api", "e1", "t1"⟩, ⟨"api", "e2", "t2"⟩, ⟨"api", "e3", "t3"⟩,
     ⟨"api", "e4", "t4"⟩, ⟨"api", "e5", "t5"⟩, ⟨"api", "e6", "t6"⟩] rfl (by simp)
  simpa using h

/-! ## Performance record (src/agent-registry.ts, recordTaskCompletion)

JavaScript floating-point numbers are modelled as exact rationals, so
the "within floating-point tolerance" of the specification becomes an
exact equality over the rational semantics. -/

/-- The fields of `AgentPerformance` read and written by
`recordTaskCompletion` (the timestamp, learnings and improvements
fields do not influence the mean and are tracked elsewhere). -/
structure PerfRecord where
  tasksCompleted : Nat
  tasksSuccessful : Nat
  avgExecutionTime : ℚ
deriving DecidableEq, Repr

/-- The zeroed record built when `agent.performance` is absent
(agent-registry.ts lines 429 to 436). -/
def blankPerf : PerfRecord :=
  { tasksCompleted := 0, tasksSuccessful := 0, avgExecutionTime := 0 }

/-- `AgentRegistry.recordTaskCompletion` (agent-registry.ts lines 421 to
449), restricted to the performance arithmetic: `tasksCompleted++`, the
success counter, and
`avgExecutionTime = (avgExecutionTime * (tasksCompleted - 1) + executionTime) / tasksCompleted`
computed after the increment. -/
def recordTaskCompletion (p : PerfRecord) (success : Bool) (t : ℚ) : PerfRecord :=
  let completed := p.tasksCompleted + 1
  { tasksCompleted := completed
  , tasksSuccessful := p.tasksSuccessful + (if success then 1 else 0)
  , avgExecutionTime :=
      (p.avgExecutionTime * ((completed : ℚ) - 1) + t) / (completed : ℚ) }

/-- A sequence of completions, each with its success flag and time. -/
def recordAll (p : PerfRecord) (rs : List (Bool × ℚ)) : PerfRecord :=
  rs.foldl (fun acc r => recordTaskCompletion acc r.1 r.2) p

theorem recordAll_invariant (rs : List (Bool × ℚ)) :
    ∀ p : PerfRecord,
      (recordAll p rs).tasksCompleted = p.tasksCompleted + rs.length
      ∧ (recordAll p rs).avgExecutionTime * ((recordAll p rs).tasksCompleted : ℚ)
        = p.avgExecutionTime * (p.tasksCompleted : ℚ) + (rs.map Prod.snd).sum := by
  induction rs with
  | nil =>
    intro p
    simp [recordAll]
  | cons r rs ih =>
    intro p
    have hstep : recordAll p (r :: rs) = recordAll (recordTaskCompletion p r.1 r.2) rs := by
      simp [recordAll]
    obtain ⟨ihc, iha⟩ := ih (recordTaskCompletion p r.1 r.2)
    constructor
    · rw [hstep, ihc]
      simp [recordTaskCompletion]
      omega
    · rw [hstep, iha]
      have hnz : ((p.tasksCompleted + 1 : ℕ) : ℚ) ≠ 0 := by
        exact_mod_cast Nat.succ_ne_zero p.tasksCompleted
      have hproj : (recordTaskCompletion p r.1 r.2).avgExecutionTime
          * ((recordTaskCompletion p r.1 r.2).tasksCompleted : ℚ)
          = p.avgExecutionTime * (p.tasksCompleted : ℚ) + r.2 := by
        simp only [recordTaskCompletion]
        rw [div_mul_cancel₀ _ hnz]
        push_cast
        ring
      rw [hproj]
      simp
      ring

/-- C6: starting from a zeroed performance record, after recording
completions with execution times t1..tn (with any success flags) the
stored average equals the arithmetic mean of t1..tn, the completion
counter equals n, and the average does not depend on the flags. -/
theorem avgExecutionTime_is_mean (rs : List (Bool × ℚ)) (hne : rs ≠ []) :
    (recordAll blankPerf rs).avgExecutionTime
      = (rs.map Prod.snd).sum / (rs.length : ℚ)
    ∧ (recordAll blankPerf rs).tasksCompleted = rs.length
    ∧ (∀ rs' : List (Bool × ℚ), rs'.map Prod.snd = rs.map Prod.snd →
        (recordAll blankPerf rs').avgExecutionTime
          = (recordAll blankPerf rs).avgExecutionTime) := by
  have key : ∀ l : List (Bool × ℚ), l ≠ [] →
      (recordAll blankPerf l).avgExecutionTime
        = (l.map Prod.snd).sum / (l.length : ℚ)
      ∧ (recordAll blankPerf l).tasksCompleted = l.length := by
    intro l hl
    obtain ⟨hc, ha⟩ := recordAll_invariant l blankPerf
    simp [blankPerf] at hc ha
    have hlen : ((l.length : ℕ) : ℚ) ≠ 0 := by
      have : l.length ≠ 0 := by
        intro h
        exact hl (List.length_eq_zero.mp h)
      exact_mod_cast this
    refine ⟨?_, hc⟩
    rw [eq_div_iff hlen, ← hc] at *
    rw [hc]
    exact ha
  obtain ⟨h1, h2⟩ := key rs hne
  refine ⟨h1, h2, fun rs' hmap => ?_⟩
  have hne' : rs' ≠ [] := by
    intro h
    rw [h] at hmap
    have : rs.map Prod.snd = [] := hmap.symm
    exact hne (List.map_eq_nil_iff.mp this)
  obtain ⟨h1', _⟩ := key rs' hne'
  rw [h1, h1', hmap]
  have : rs'.length = rs.length := by
    have := congrArg List.length hmap
    simpa using this
  rw [this]

theorem avgExecutionTime_is_mean_witness :
    (recordAll blankPerf [(true, 2), (false, 4)]).avgExecutionTime
      = ([(true, (2 : ℚ)), (false, 4)].map Prod.snd).sum / (2 : ℚ)
    ∧ (recordAll blankPerf [(true, 2), (false, 4)]).tasksCompleted = 2 := by
  have h := avgExecutionTime_is_mean [(true, 2), (false, 4)] (by simp)
  exact ⟨by rw [h.1]; norm_num, h.2.1⟩

/-! ## Success classification (orchestrator module, runAgent)

The orchestrator classifies an execution result with
`!result.toLowerCase().includes('failed') && !result.toLowerCase().includes('error')`. -/

/-- Whether `needle` starts `hay` (character-wise). -/
def startsL : List Char → List Char → Bool
  | [], _ => true
  | _ :: _, [] => false
  | a :: as, b :: bs => a = b && startsL as bs

/-- Whether `needle` occurs contiguously anywhere in `hay`, the
semantics of JavaScript `String.prototype.includes`. -/
def hasSub : List Char → List Char → Bool
  | hay, needle =>
    match hay with
    | [] => startsL needle []
    | _ :: rest => startsL needle hay || hasSub rest needle

def hasSubstr (hay needle : String) : Bool :=
  hasSub hay.toList needle.toList

/-- JavaScript `toLowerCase`, modelled character-wise (the literals of
this program are ASCII, where the two agree). -/
def jsToLower (s : String) : List Char :=
  s.toList.map Char.toLower

/-- The success heuristic of `AgentOrchestrator.runAgent`:
`const success = !result.toLowerCase().includes('failed') && !result.toLowerCase().includes('error')`. -/
def classifySuccess (result : String) : Bool :=
  !(hasSub (jsToLower result) "failed".toList)
    && !(hasSub (jsToLower result) "error".toList)

/-- Case-insensitive substring containment, the wording of the
specification: both the text and the probe are lowercased before the
containment test. -/
def containsCI (s probe : String) : Bool :=
  hasSub (jsToLower s) (jsToLower probe)

/-- C3: the orchestrator records a failure iff the result text
case-insensitively contains the substring "failed" or the substring
"error"; in particular the output "no error found" is classified as
failed. -/
theorem classifySuccess_spec :
    (∀ s : String, classifySuccess s = false ↔
      (containsCI s "failed" = true ∨ containsCI s "error" = true))
    ∧ classifySuccess "no error found" = false := by
  constructor
  · intro s
    have hf : jsToLower "failed" = "failed".toList := by decide
    have he : jsToLower "error" = "error".toList := by decide
    unfold classifySuccess containsCI
    rw [hf, he]
    cases h1 : hasSub (jsToLower s) "failed".toList <;>
      cases h2 : hasSub (jsToLower s) "error".toList <;> simp
  · decide

/-! ## Domain and pattern classification (orchestrator module,
detectDomain and extractPattern)

The nine source templates use only literal characters, `\s+`, `\w+`,
an optional literal (`tests?`) and the `i` flag, so the regular
expressions are embedded as token lists over that exact alphabet and
matched with a backtracking matcher; `test` semantics (a match starting
at any position) is `searchToks`.  Case-insensitivity is realised by
matching the lowercased input against the lowercase literals of the
source.  JavaScript `\w` is `[A-Za-z0-9_]` and `\s` is whitespace,
modelled on the ASCII characters that occur in task titles. -/

inductive RTok
  | lit (c : Char)
  | optLit (c : Char)
  | ws
  | word
deriving DecidableEq, Repr

def isWordChar (c : Char) : Bool :=
  c.isAlphanum || c = '_'

def isSpaceChar (c : Char) : Bool :=
  c = ' ' || c = '\t' || c = '\n' || c = '\r'

/-- Whether a token list matches the empty input: only optional
literals may remain. -/
def matchEmpty : List RTok → Bool
  | [] => true
  | RTok.optLit _ :: ps => matchEmpty ps
  | _ :: _ => false

/-- One backtracking step on input character `x`: `rest` continues the
match on the remaining input.  For an optional literal both consuming
and skipping branches are tried; for `\s+` and `\w+` the quantifier
either stops (continue with `ps`) or consumes further characters
(continue with the quantifier still pending). -/
def goStep (x : Char) (rest : List RTok → Bool) : List RTok → Bool
  | [] => true
  | RTok.lit c :: ps => c = x && rest ps
  | RTok.optLit c :: ps => (c = x && rest ps) || goStep x rest ps
  | RTok.ws :: ps => isSpaceChar x && (rest ps || rest (RTok.ws :: ps))
  | RTok.word :: ps => isWordChar x && (rest ps || rest (RTok.word :: ps))

/-- Backtracking match of a token list at the start of the input. -/
def matchToks : List Char → List RTok → Bool
  | [], ps => matchEmpty ps
  | x :: xs, ps => goStep x (matchToks xs) ps

/-- Match starting at any position, the semantics of `RegExp.test`. -/
def searchToks (ps : List RTok) : List Char → Bool
  | [] => matchToks [] ps
  | x :: xs => matchToks (x :: xs) ps || searchToks ps xs

def regexTest (ps : List RTok) (s : String) : Bool :=
  searchToks ps (jsToLower s)

def litToks (s : String) : List RTok :=
  s.toList.map RTok.lit

/-- One entry of the `patterns` array of `extractPattern`. -/
structure PatternTemplate where
  toks : List RTok
  pattern : String
  domain : String

/-- The ordered template list of `AgentOrchestrator.extractPattern`. -/
def patternTemplates : List PatternTemplate :=
  [ ⟨litToks "implement" ++ [RTok.ws, RTok.word, RTok.ws] ++ litToks "endpoint",
      "implement-endpoint", "api"⟩
  , ⟨litToks "create" ++ [RTok.ws, RTok.word, RTok.ws] ++ litToks "component",
      "create-component", "frontend"⟩
  , ⟨litToks "add" ++ [RTok.ws, RTok.word, RTok.ws] ++ litToks "service",
      "add-service", "backend"⟩
  , ⟨litToks "fix" ++ [RTok.ws] ++ litToks "bug" ++ [RTok.ws] ++ litToks "in"
        ++ [RTok.ws, RTok.word],
      "fix-bug", "debugging"⟩
  , ⟨litToks "write" ++ [RTok.ws] ++ litToks "test" ++ [RTok.optLit 's', RTok.ws]
        ++ litToks "for" ++ [RTok.ws, RTok.word],
      "write-tests", "testing"⟩
  , ⟨litToks "update" ++ [RTok.ws, RTok.word, RTok.ws] ++ litToks "schema",
      "update-schema", "database"⟩
  , ⟨litToks "integrate" ++ [RTok.ws, RTok.word], "integration", "integration"⟩
  , ⟨litToks "refactor" ++ [RTok.ws, RTok.word], "refactor", "maintenance"⟩
  , ⟨litToks "deploy" ++ [RTok.ws] ++ litToks "to" ++ [RTok.ws, RTok.word],
      "deployment", "devops"⟩ ]

/-- The keyword table of `AgentOrchestrator.detectDomain`, in the
insertion order of the source object literal (JavaScript preserves it
for string keys). -/
def domainKeywords : List (String × List String) :=
  [ ("api", ["api", "endpoint", "webhook", "graphql", "rest"])
  , ("database", ["database", "schema", "prisma", "postgres", "redis", "migration"])
  , ("frontend", ["ui", "react", "component", "dashboard", "page", "view"])
  , ("backend", ["server", "service", "module", "controller"])
  , ("ai", ["agent", "claude", "llm", "ai", "prompt", "model"])
  , ("auth", ["auth", "login", "oauth", "permission", "token", "session"])
  , ("testing", ["test", "spec", "mock", "coverage", "e2e"])
  , ("devops", ["deploy", "ci", "cd", "docker", "pipeline"]) ]

/-- `AgentOrchestrator.detectDomain`: first domain whose keyword set has
a member occurring as a substring of the lowercased task, else
"general". -/
def detectDomain (task : String) : String :=
  let lower := jsToLower task
  match domainKeywords.find? (fun dk => dk.2.any (fun kw => hasSub lower kw.toList)) with
  | some dk => dk.1
  | none => "general"

/-- `AgentOrchestrator.extractPattern`: first matching template wins;
with no template match, a detected non-general domain yields the
fallback pattern `<domain>-task`; otherwise no pattern. -/
def extractPattern (task : String) : Option (String × String) :=
  match patternTemplates.find? (fun t => regexTest t.toks task) with
  | some t => some (t.pattern, t.domain)
  | none =>
    let domain := detectDomain task
    if domain ≠ "general" then some (domain ++ "-task", domain) else none

/-- C8: the task "implement payments endpoint" classifies as domain
"api" and pattern "implement-endpoint", and the fallback
`<domain>-task` is produced exactly when no regex template matches but a
non-general domain was detected. -/
theorem classify_payments_endpoint :
    detectDomain "implement payments endpoint" = "api"
    ∧ extractPattern "implement payments endpoint" = some ("implement-endpoint", "api")
    ∧ (∀ task : String,
        (∀ t ∈ patternTemplates, regexTest t.toks task = false) →
        extractPattern task =
          (if detectDomain task = "general" then none
           else some (detectDomain task ++ "-task", detectDomain task))) := by
  refine ⟨by decide, by decide, fun task hnone => ?_⟩
  unfold extractPattern
  have hfind : patternTemplates.find? (fun t => regexTest t.toks task) = none := by
    rw [List.find?_eq_none]
    intro t ht
    rw [hnone t ht]
    simp
  rw [hfind]
  by_cases h : detectDomain task = "general"
  · rw [if_pos h]
    simp [h]
  · rw [if_neg h]
    simp [h]

theorem classify_payments_endpoint_witness :
    extractPattern "update the users schema" =
      (if detectDomain "update the users schema" = "general" then none
       else some (detectDomain "update the users schema" ++ "-task",
         detectDomain "update the users schema")) := by
  have h := (classify_payments_endpoint).2.2 "update the users schema" (by decide)
  exact h

/-! ## Task store (src/taskdb.ts and src/controllers/tasks.controller.ts)

The in-memory branch of `TaskDatabase` (`this.memTasks`), with statuses
kept as the strings that are persisted.  The statuses writable through
the typed API are the union of the `Task.status` type of taskdb.ts and
the `UpdateTaskRequest.status` union of tasks.controller.ts line 17,
which adds `pr_created`. -/

inductive TaskStatus
  | backlog
  | ready
  | inProgress
  | prCreated
  | done
deriving DecidableEq, Repr

/-- The string each status constructor is stored as. -/
def TaskStatus.toDbString : TaskStatus → String
  | TaskStatus.backlog => "backlog"
  | TaskStatus.ready => "ready"
  | TaskStatus.inProgress => "in_progress"
  | TaskStatus.prCreated => "pr_created"
  | TaskStatus.done => "done"

def validStatuses : List String :=
  ["backlog", "ready", "in_progress", "pr_created", "done"]

/-- A stored task, restricted to the fields the status claims read. -/
structure StoredTask where
  id : String
  title : String
  description : Option String
  status : String
  owner : Option String
  priority : Option String
  output : Option String
deriving DecidableEq, Repr

def TaskStore : Type := String → Option StoredTask

def emptyTaskStore : TaskStore := fun _ => none

def setTask (σ : TaskStore) (k : String) (t : StoredTask) : TaskStore :=
  fun x => if x = k then some t else σ x

/-- `TaskDatabase.createTask` (taskdb.ts lines 269 to 299): a fresh task
is always created with `status: 'backlog'`.  The generated id is passed
in by the caller here (the source draws it from `generateId`). -/
def createTask (σ : TaskStore) (id title : String) (description owner priority : Option String) :
    TaskStore × StoredTask :=
  let t : StoredTask :=
    { id := id, title := title, description := description,
      status := "backlog", owner := owner, priority := priority, output := none }
  (setTask σ id t, t)

/-- The update payload of `TaskDatabase.updateTask`, with the `status`
field drawn from the typed unions of the callers (`'ready'` and the
like from the orchestrator, plus `'pr_created'` from the tasks
controller); an absent field leaves the stored value unchanged, which
is the semantics of the object spread `{...task, ...updates}`. -/
structure TaskUpdate where
  title : Option String
  description : Option String
  status : Option TaskStatus
  owner : Option String
  priority : Option String
  output : Option String

/-- `TaskDatabase.updateTask` (taskdb.ts lines 386 to 408), in-memory
branch: merge the update over the stored record; a missing id is a
no-op returning undefined. -/
def updateTask (σ : TaskStore) (id : String) (upd : TaskUpdate) : TaskStore :=
  match σ id with
  | none => σ
  | some t =>
    setTask σ id
      { t with
        title := upd.title.getD t.title
        description := (upd.description.map Option.some).getD t.description
        status := (upd.status.map TaskStatus.toDbString).getD t.status
        owner := (upd.owner.map Option.some).getD t.owner
        priority := (upd.priority.map Option.some).getD t.priority
        output := (upd.output.map Option.some).getD t.output }

/-- `TaskDatabase.deleteTask`, in-memory branch. -/
def deleteTask (σ : TaskStore) (id : String) : TaskStore :=
  fun x => if x = id then none else σ x

/-- One mutation of the task store through its typed API. -/
inductive TaskStep : TaskStore → TaskStore → Prop
  | create (σ : TaskStore) (id title : String)
      (description owner priority : Option String) :
      TaskStep σ (createTask σ id title description owner priority).1
  | update (σ : TaskStore) (id : String) (upd : TaskUpdate) :
      TaskStep σ (updateTask σ id upd)
  | del (σ : TaskStore) (id : String) :
      TaskStep σ (deleteTask σ id)

/-- Stores reachable from the empty store through the API. -/
inductive TaskReach : TaskStore → Prop
  | init : TaskReach emptyTaskStore
  | step {σ σ' : TaskStore} : TaskReach σ → TaskStep σ σ' → TaskReach σ'

theorem toDbString_valid (s : TaskStatus) : s.toDbString ∈ validStatuses := by
  cases s <;> simp [TaskStatus.toDbString, validStatuses]

theorem task_status_step (σ σ' : TaskStore) (hstep : TaskStep σ σ')
    (ih : ∀ id t, σ id = some t → t.status ∈ validStatuses) :
    ∀ id t, σ' id = some t → t.status ∈ validStatuses := by
  cases hstep with
  | create cid ctitle cdesc cown cprio =>
    intro id t ht
    unfold createTask setTask at ht
    by_cases hid : id = cid
    · simp only [hid, if_pos rfl] at ht
      rw [← Option.some.inj ht]
      simp [validStatuses]
    · simp only [if_neg hid] at ht
      exact ih id t ht
  | update uid upd =>
    intro id t ht
    unfold updateTask at ht
    cases hσ : σ uid with
    | none => rw [hσ] at ht; exact ih id t ht
    | some t0 =>
      rw [hσ] at ht
      unfold setTask at ht
      by_cases hid : id = uid
      · simp only [hid, if_pos rfl] at ht
        rw [← Option.some.inj ht]
        cases hst : upd.status with
        | none =>
          simp only [hst, Option.map_none', Option.getD_none]
          exact ih uid t0 hσ
        | some s =>
          simp only [hst, Option.map_some', Option.getD_some]
          exact toDbString_valid s
      · simp only [if_neg hid] at ht
        exact ih id t ht
  | del did =>
    intro id t ht
    unfold deleteTask at ht
    by_cases hid : id = did
    · simp [hid] at ht
    · simp only [if_neg hid] at ht
      exact ih id t ht

/-- C9: every task in a store reachable through the task-store API has
a status drawn from {backlog, ready, in_progress, pr_created, done},
and a task created through `createTask` starts in status backlog. -/
theorem task_status_invariant (σ : TaskStore) (h : TaskReach σ) :
    (∀ id t, σ id = some t → t.status ∈ validStatuses)
    ∧ (∀ (σ₀ : TaskStore) (id title : String)
        (description owner priority : Option String),
        ((createTask σ₀ id title description owner priority).2).status = "backlog") := by
  refine ⟨?_, fun σ₀ id title d o p => rfl⟩
  induction h with
  | init => intro id t ht; exact absurd ht (by simp [emptyTaskStore])
  | step hreach hstep ih => exact task_status_step _ _ hstep ih

theorem task_status_invariant_witness :
    (∀ id t,
      (createTask emptyTaskStore "t1" "demo" none none none).1 id = some t →
      t.status ∈ validStatuses)
    ∧ ((createTask emptyTaskStore "t1" "demo" none none none).2).status = "backlog" := by
  have h := task_status_invariant
    (createTask emptyTaskStore "t1" "demo" none none none).1
    (TaskReach.step TaskReach.init
      (TaskStep.create emptyTaskStore "t1" "demo" none none none))
  exact ⟨h.1, h.2 emptyTaskStore "t1" "demo" none none none⟩

/-! ## Follow-up planning (orchestrator module, planNextTasks)

`planNextTasks` queries the backend, then parses the returned text as
JSON inside a try block; every task-store mutation (`updateTask` to
ready, `createTask`, and the delayed `runAgent` scheduling) happens
after the successful parse, and the catch handler only logs and returns
an empty array.  `parsePlan` stands for `JSON.parse` followed by the
field reads on the resulting object; `none` models the thrown-and-caught
parse failure. -/

/-- A `newTasks` entry of the PM plan. -/
structure NewTaskReq where
  title : String
  description : String
  owner : String
  priority : String

/-- The parsed PM decision object; `readyTasks` and `newTasks` already
account for the `|| []` defaults of the source. -/
structure PMPlan where
  analysis : String
  readyTasks : List String
  newTasks : List NewTaskReq
  nextAgent : Option String
  nextTask : Option String

/-- Outcome of `planNextTasks`: the mutated store, the array of created
tasks it returns, and the follow-up `runAgent` call it schedules with
`setTimeout`, if any. -/
structure PlanOutcome where
  store : TaskStore
  created : List StoredTask
  followUp : Option (String × String)

/-- The `for (const newTask of plan.newTasks || [])` loop: each entry is
created via `taskDb.createTask` and pushed onto `createdTasks`.  Fresh
ids are supplied by the caller (the source draws them inside
`createTask`), consumed left to right. -/
def createAllTasks (σ : TaskStore) (ids : List String) (reqs : List NewTaskReq) :
    TaskStore × List StoredTask :=
  match ids, reqs with
  | _, [] => (σ, [])
  | [], _ => (σ, [])
  | i :: ids, r :: reqs =>
    let (σ1, t) := createTask σ i r.title (some r.description) (some r.owner) (some r.priority)
    let (σ2, rest) := createAllTasks σ1 ids reqs
    (σ2, t :: rest)

/-- The update payload `{ status: 'ready' }`. -/
def readyUpdate : TaskUpdate :=
  { title := none, description := none, status := some TaskStatus.ready,
    owner := none, priority := none, output := none }

/-- `AgentOrchestrator.planNextTasks`, from the backend response text
onward (the preceding board/memory reads do not mutate the store).  On
parse failure the catch branch returns `[]` with no other effect; on
success the listed tasks are marked ready, the new tasks created, and a
follow-up run scheduled when both `nextAgent` and `nextTask` are
present. -/
def planNextTasks (parsePlan : String → Option PMPlan) (σ : TaskStore)
    (freshIds : List String) (resultText : String) : PlanOutcome :=
  match parsePlan resultText with
  | none => { store := σ, created := [], followUp := none }
  | some plan =>
    let σ1 := plan.readyTasks.foldl (fun s tid => updateTask s tid readyUpdate) σ
    let (σ2, created) := createAllTasks σ1 freshIds plan.newTasks
    let followUp :=
      match plan.nextAgent, plan.nextTask with
      | some a, some t => some (a, t)
      | _, _ => none
    { store := σ2, created := created, followUp := followUp }

/-- C7: when the backend text does not parse as JSON, `planNextTasks`
returns an empty created-task list, leaves the task store untouched,
and schedules no follow-up run; the failure is absorbed (the function
returns normally). -/
theorem planNextTasks_malformed (parsePlan : String → Option PMPlan)
    (σ : TaskStore) (freshIds : List String) (resultText : String)
    (h : parsePlan resultText = none) :
    planNextTasks parsePlan σ freshIds resultText =
      { store := σ, created := [], followUp := none } := by
  unfold planNextTasks
  rw [h]

theorem planNextTasks_malformed_witness :
    planNextTasks (fun _ => none) emptyTaskStore ["id1"] "not json at all" =
      { store := emptyTaskStore, created := [], followUp := none } :=
  planNextTasks_malformed (fun _ => none) emptyTaskStore ["id1"] "not json at all" rfl

/-! ## Worker pool submissions (src/claude-pool.ts)

A pool session is identified by its position in Map insertion order
(`Array.from(this.pool.values())` preserves it); `some p` means the
session is busy executing prompt `p` (`busy` flag set by `executeTask`),
`none` means it is free.  The queue holds the prompts of queued
submissions in FIFO order. -/

structure PoolState where
  sessions : List (Option String)
  queue : List String
deriving DecidableEq, Repr

/-- Assign a prompt to the first free session
(`Array.from(this.pool.values()).find(p => !p.busy)` followed by
`instance.busy = true` in `executeTask`); `none` when every session is
busy. -/
def assignFirst : List (Option String) → String → Option (List (Option String))
  | [], _ => none
  | none :: rest, p => some (some p :: rest)
  | some q :: rest, p =>
    match assignFirst rest p with
    | some rest' => some (some q :: rest')
    | none => none

/-- `ClaudePool.runTask` (claude-pool.ts lines 117 to 130): dispatch to
a free session if one exists, otherwise append the submission to the
task queue. -/
def runTask (st : PoolState) (prompt : String) : PoolState :=
  match assignFirst st.sessions prompt with
  | some ss => { sessions := ss, queue := st.queue }
  | none => { sessions := st.sessions, queue := st.queue ++ [prompt] }

/-- `ClaudePool.processQueue` (claude-pool.ts lines 183 to 193): on a
non-empty queue, shift the head and dispatch it to the first free
session; with no free session the queue is left as is. -/
def processQueue (st : PoolState) : PoolState :=
  match st.queue with
  | [] => st
  | p :: rest =>
    match assignFirst st.sessions p with
    | some ss => { sessions := ss, queue := rest }
    | none => st

/-- Completion of the in-flight submission on session `i`: the
completion handler of `executeTask` clears the busy flag and then calls
`processQueue`. -/
def completeTask (st : PoolState) (i : Nat) : PoolState :=
  processQueue { sessions := st.sessions.set i none, queue := st.queue }

/-- The pool after `initialize()` with `poolSize = n`: n free sessions,
empty queue. -/
def initPool (n : Nat) : PoolState :=
  { sessions := List.replicate n none, queue := [] }

def submitAll (n : Nat) (prompts : List String) : PoolState :=
  prompts.foldl runTask (initPool n)

/-- Number of sessions whose busy flag is set. -/
def busyCount (st : PoolState) : Nat :=
  st.sessions.countP Option.isSome

/-- A pool state with `bs` busy sessions (in dispatch order), `f` free
sessions after them, and queue `qs`. -/
def midState (bs : List String) (f : Nat) (qs : List String) : PoolState :=
  { sessions := bs.map Option.some ++ List.replicate f none, queue := qs }

theorem assignFirst_all_busy (bs : List String) (p : String) :
    assignFirst (bs.map Option.some) p = none := by
  induction bs with
  | nil => rfl
  | cons b bs ih => simp [assignFirst, ih]

theorem assignFirst_mixed (bs : List String) (f : Nat) (p : String) :
    assignFirst (bs.map Option.some ++ none :: List.replicate f none) p
      = some (bs.map Option.some ++ some p :: List.replicate f none) := by
  induction bs with
  | nil => rfl
  | cons b bs ih => simp [assignFirst, ih]

theorem runTask_free (bs : List String) (f : Nat) (qs : List String) (p : String) :
    runTask (midState bs (f + 1) qs) p = midState (bs ++ [p]) f qs := by
  unfold runTask midState
  simp only [List.replicate_succ]
  rw [assignFirst_mixed]
  simp

theorem runTask_full (bs : List String) (qs : List String) (p : String) :
    runTask (midState bs 0 qs) p = midState bs 0 (qs ++ [p]) := by
  unfold runTask midState
  simp only [List.replicate_zero, List.append_nil]
  rw [assignFirst_all_busy]

theorem foldl_runTask (prompts : List String) :
    ∀ (bs : List String) (f : Nat) (qs : List String),
      prompts.foldl runTask (midState bs f qs)
        = midState (bs ++ prompts.take f) (f - prompts.length)
            (qs ++ prompts.drop f) := by
  induction prompts with
  | nil => intro bs f qs; simp
  | cons p ps ih =>
    intro bs f qs
    cases f with
    | zero =>
      rw [List.foldl_cons, runTask_full, ih]
      simp
    | succ f =>
      rw [List.foldl_cons, runTask_free, ih]
      unfold midState
      simp only [List.take_succ_cons, List.drop_succ_cons, List.length_cons,
        List.append_assoc, List.singleton_append]
      have harith : f - ps.length = f + 1 - (ps.length + 1) := by omega
      rw [harith]

/-- C2: with a pool of size N and no completions, at most N submissions
are in flight (busy sessions) — exactly min(k, N) after k submissions —
and every further submission is appended to the FIFO queue, not
dropped.  For a pool of size 2 and three submissions, the third is
queued; when session 1 completes, the queued submission is dispatched
to session 1 (the first pool slot) and the queue becomes empty. -/
theorem pool_capacity_and_queue :
    (∀ (n : Nat) (prompts : List String),
      busyCount (submitAll n prompts) = min n prompts.length
      ∧ busyCount (submitAll n prompts) ≤ n
      ∧ (submitAll n prompts).queue = prompts.drop n)
    ∧ (submitAll 2 ["task1", "task2", "task3"]).queue = ["task3"]
    ∧ completeTask (submitAll 2 ["task1", "task2", "task3"]) 0
        = { sessions := [some "task3", some "task2"], queue := [] } := by
  have hfold : ∀ (n : Nat) (prompts : List String),
      submitAll n prompts
        = midState (prompts.take n) (n - prompts.length) (prompts.drop n) := by
    intro n prompts
    have h0 : initPool n = midState [] n [] := by
      unfold initPool midState
      simp
    unfold submitAll
    rw [h0, foldl_runTask]
    simp
  refine ⟨fun n prompts => ⟨?_, ?_, ?_⟩, by decide, by decide⟩
  · rw [hfold]
    unfold busyCount midState
    rw [List.countP_append]
    have h1 : (List.map Option.some (prompts.take n)).countP Option.isSome
        = (prompts.take n).length := by
      rw [List.countP_map]
      simp [Function.comp_def, List.countP_eq_length]
    rw [h1]
    have h3 : (List.replicate (n - prompts.length) (none : Option String)).countP Option.isSome = 0 := by
      simp [List.countP_eq_zero]
    rw [h3]
    simp [Nat.min_comm]
  · rw [hfold]
    unfold busyCount midState
    rw [List.countP_append]
    have h1 : (List.map Option.some (prompts.take n)).countP Option.isSome
        = (prompts.take n).length := by
      rw [List.countP_map]
      simp [Function.comp_def, List.countP_eq_length]
    have h3 : (List.replicate (n - prompts.length) (none : Option String)).countP Option.isSome = 0 := by
      simp [List.countP_eq_zero]
    rw [h1, h3]
    simp
  · rw [hfold]
    rfl

/-! ## Session exit and the in-flight submission (src/claude-pool.ts)

`spawnInstance` installs an exit handler (lines 86 to 94): it deletes
the pool entry and, when not shutting down and the pool is below its
size, schedules `spawnInstance` again with `setTimeout(..., 1000)`.
`executeTask` (lines 132 to 181) installs an independent
`setTimeout(..., timeout)` whose callback, if the submission has not
completed, marks it completed and resolves its promise with
`{ success:false, output, error:'Timeout exceeded' }`.  The exit handler
touches neither the `completed` flag nor the timer, so the machine below
tracks both treatments of one in-flight submission. -/

/-- `TaskResult` from claude-pool.ts. -/
structure TaskResult where
  success : Bool
  output : String
  error : Option String
deriving DecidableEq, Repr

/-- State of the pool together with one observed in-flight submission:
`pool` is the id set of the `this.pool` Map, `respawnsScheduled` counts
pending `setTimeout(() => this.spawnInstance(...), 1000)` callbacks,
`subCompleted` is the `completed` flag of the submission closure and
`subResolved` what its promise has been resolved with, if anything. -/
structure ExitMachine where
  pool : List String
  poolSize : Nat
  isShuttingDown : Bool
  respawnsScheduled : Nat
  subAssignedTo : String
  subCompleted : Bool
  subResolved : Option TaskResult
deriving DecidableEq, Repr

/-- The timeout result `resolve({ success:false, output, error:'Timeout
exceeded' })` with the output accumulated so far (empty for a session
that produced nothing before dying). -/
def timeoutResult : TaskResult :=
  { success := false, output := "", error := some "Timeout exceeded" }

/-- The `child.on('exit', ...)` handler of `spawnInstance`. -/
def onSessionExit (m : ExitMachine) (id : String) : ExitMachine :=
  let pool' := m.pool.filter (fun x => x ≠ id)
  let m' := { m with pool := pool' }
  if m.isShuttingDown = false ∧ pool'.length < m.poolSize then
    { m' with respawnsScheduled := m.respawnsScheduled + 1 }
  else m'

/-- The per-submission timer callback of `executeTask`. -/
def onSubTimeout (m : ExitMachine) : ExitMachine :=
  if m.subCompleted then m
  else { m with subCompleted := true, subResolved := some timeoutResult }

inductive PoolEvent
  | exit (id : String)
  | subTimeout
deriving DecidableEq, Repr

def stepEvent (m : ExitMachine) : PoolEvent → ExitMachine
  | PoolEvent.exit id => onSessionExit m id
  | PoolEvent.subTimeout => onSubTimeout m

def runEvents (m : ExitMachine) (es : List PoolEvent) : ExitMachine :=
  es.foldl stepEvent m

/-- A pool of one session with one in-flight, uncompleted submission
assigned to it. -/
def crashScenario : ExitMachine :=
  { pool := ["pool-0"], poolSize := 1, isShuttingDown := false,
    respawnsScheduled := 0, subAssignedTo := "pool-0",
    subCompleted := false, subResolved := none }

/-- C4 counterexample: the claim states that the promise of the
in-flight submission assigned to a dead session is never resolved.  In
the source the submission timer of `executeTask` is independent of the
session process and is not cleared by the exit handler, so after the
session dies the timer fires and resolves the promise with a timeout
failure: here the session of `crashScenario` exits (the dead entry is
removed and a respawn scheduled) and the subsequent timer event
resolves the submission, refuting "the promise is never resolved". -/
theorem session_exit_promise_resolved :
    (runEvents crashScenario [PoolEvent.exit "pool-0", PoolEvent.subTimeout]).subResolved
        = some timeoutResult
      ∧ (runEvents crashScenario [PoolEvent.exit "pool-0"]).pool = []
      ∧ (runEvents crashScenario [PoolEvent.exit "pool-0"]).respawnsScheduled = 1
      ∧ (runEvents crashScenario [PoolEvent.exit "pool-0"]).subResolved = none := by
  refine ⟨by decide, by decide, by decide, by decide⟩

/-- C4 amended: on session exit with shutdown unset, the pool removes
the dead entry and schedules one replacement spawn, and the exit
handling itself leaves the in-flight submission unresolved; the
submission is resolved only later, when its own timeout timer fires,
with a timeout failure. -/
theorem session_exit_respawn_and_timeout (m : ExitMachine) (id : String)
    (hs : m.isShuttingDown = false) (hin : id ∈ m.pool)
    (hsz : m.pool.length ≤ m.poolSize) (hc : m.subCompleted = false) :
    id ∉ (onSessionExit m id).pool
    ∧ (onSessionExit m id).respawnsScheduled = m.respawnsScheduled + 1
    ∧ (onSessionExit m id).subResolved = m.subResolved
    ∧ (onSubTimeout (onSessionExit m id)).subResolved = some timeoutResult := by
  have hlt : (m.pool.filter (fun x => x ≠ id)).length < m.poolSize := by
    have hlen : (m.pool.filter (fun x => x ≠ id)).length < m.pool.length := by
      rw [List.length_filter_lt_length_iff_exists]
      exact ⟨id, hin, by simp⟩
    omega
  have hcond : (m.isShuttingDown = false ∧
      (m.pool.filter (fun x => x ≠ id)).length < m.poolSize) := ⟨hs, hlt⟩
  have hexit : onSessionExit m id =
      { m with pool := m.pool.filter (fun x => x ≠ id),
               respawnsScheduled := m.respawnsScheduled + 1 } := by
    unfold onSessionExit
    rw [if_pos hcond]
  refine ⟨?_, ?_, ?_, ?_⟩
  · rw [hexit]
    simp
  · rw [hexit]
  · rw [hexit]
  · rw [hexit]
    unfold onSubTimeout
    rw [if_neg (by simp [hc])]

theorem session_exit_respawn_and_timeout_witness :
    "pool-0" ∉ (onSessionExit crashScenario "pool-0").pool
    ∧ (onSessionExit crashScenario "pool-0").respawnsScheduled = 1
    ∧ (onSessionExit crashScenario "pool-0").subResolved = none
    ∧ (onSubTimeout (onSessionExit crashScenario "pool-0")).subResolved
        = some timeoutResult := by
  have h := session_exit_respawn_and_timeout crashScenario "pool-0"
    rfl (by decide) (by decide) rfl
  exact ⟨h.1, h.2.1, by rw [h.2.2.1]; rfl, h.2.2.2⟩
